import Mathlib

/-!
Shallow embedding of the vislib_robo motion-control library
(trapezoidal motion profile, PID regulator, orientation estimator axis,
motor speed controller, platform kinematics), with theorems settling the
specification claims.  Numeric C++ `double` values are modelled by exact
real numbers `ℝ`.
-/

namespace Vislib

/-- Error codes of vislib core (`core::ErrorCode`). -/
inductive ErrorCode where
  | success
  | invalidArgument
  | invalidConfiguration
  | initFailed
  | outOfRange
  | reachedTheTarget
  | invalidResource
deriving DecidableEq, Repr

/-- Error value (`core::Error`): a code plus a message.  A default
constructed error is `success` with empty message. -/
structure Error where
  errcode : ErrorCode := .success
  msg : String := ""
deriving DecidableEq, Repr

/-- Truthiness of a `core::Error` (`if(e)` in C++): true when not success. -/
def Error.isErr (e : Error) : Bool := e.errcode ≠ ErrorCode.success

/-- Modelled from the spec (vislib.hpp is not in the sources): `core::signF`,
the sign of a number as used for the motion direction `s = sign(xt - x0)`. -/
noncomputable def signF (x : ℝ) : ℝ := if 0 < x then 1 else if x < 0 then -1 else 0

/-- Modelled from the spec (vislib.hpp is not in the sources): `core::minF`. -/
noncomputable def minF (a b : ℝ) : ℝ := min a b

/-- Modelled from the spec (vislib.hpp is not in the sources): `core::absF`. -/
noncomputable def absF (x : ℝ) : ℝ := |x|

/-- Result record of a trapezoidal motion query (`TMPResult<T>`);
value-initialized fields default to zero. -/
structure TMPResult where
  position : ℝ := 0
  speed : ℝ := 0
  acceleration : ℝ := 0

/-- State of `TrapezoidalMotionProfile<T>`: physical constants, phase
boundary times and positions, direction sign, start time and the
configuration flag, with the C++ member initializers as defaults. -/
structure TrapezoidalMotionProfile where
  acceleration : ℝ := 0
  speedLimit : ℝ := 0
  t1 : ℝ := 0
  t2 : ℝ := 0
  t3 : ℝ := 0
  x1 : ℝ := 0
  x2 : ℝ := 0
  startTime : ℝ := 0
  x0 : ℝ := 0
  xt : ℝ := 0
  s : ℝ := 1
  isConfiguredFlag : Bool := false

namespace TrapezoidalMotionProfile

/-- State produced by the default constructor `TrapezoidalMotionProfile()`. -/
def init : TrapezoidalMotionProfile := {}

/-- State produced by the two-argument constructor. -/
def mk2 (acceleration speedLimit : ℝ) : TrapezoidalMotionProfile :=
  { acceleration := acceleration, speedLimit := speedLimit }

/-- Effect of `endMotion()`: the whole profile is reset to the default state. -/
def endMotion (_ : TrapezoidalMotionProfile) : TrapezoidalMotionProfile := init

/-- Translation of `validCheck()`: checks `x0 == xt`, `acceleration <= 0`
and `speedLimit <= 0` in that order; each failing branch calls
`endMotion()` (resetting the state) before returning its error. -/
noncomputable def validCheck (st : TrapezoidalMotionProfile) :
    Error × TrapezoidalMotionProfile :=
  if st.x0 = st.xt then
    ({ errcode := .reachedTheTarget,
       msg := "The motion starting position is the same as final destination" }, init)
  else if st.acceleration ≤ 0 then
    ({ errcode := .invalidConfiguration,
       msg := "The motion controller does not support acceleration equal or below zero and is supposed to work with positive values" }, init)
  else if st.speedLimit ≤ 0 then
    ({ errcode := .invalidConfiguration,
       msg := "The motion controller does not support speed limit equal or below zero and is supposed to work with positive values" }, init)
  else ({ errcode := .success, msg := "" }, st)

/-- Translation of `isConfiguredAsErr()`: success when the configured flag
is set, otherwise the `validCheck` error with a prefixed message. -/
noncomputable def isConfiguredAsErr (st : TrapezoidalMotionProfile) :
    Error × TrapezoidalMotionProfile :=
  if st.isConfiguredFlag then ({ errcode := .success, msg := "" }, st)
  else
    let ev := validCheck st
    ({ errcode := ev.1.errcode,
       msg := "Trapezoidal Motion Profile was not configured or was ill-configured: " ++ ev.1.msg },
     ev.2)

/-- Translation of `startMotion(startPosition, targetPosition, startTime)`. -/
noncomputable def startMotion (st0 : TrapezoidalMotionProfile)
    (startPosition targetPosition startTime : ℝ) :
    Error × TrapezoidalMotionProfile :=
  let st := { st0 with isConfiguredFlag := false,
                       x0 := startPosition, xt := targetPosition }
  let ev := isConfiguredAsErr st
  if ev.1.isErr then ev
  else
    let st1 := ev.2
    let s := signF (st1.xt - st1.x0)
    let sl := s * minF st1.speedLimit (Real.sqrt (absF (st1.acceleration * (st1.xt - st1.x0))))
    let t1 := absF sl / st1.acceleration
    let x1 := st1.x0 + s * st1.acceleration * t1 * t1 / 2
    let t2 := t1 + (st1.xt + st1.x0 - 2 * x1) / sl
    let x2 := x1 + st1.acceleration * (t2 - t1)
    let t3 := t1 + t2
    ({ errcode := .success, msg := "" },
     { st1 with s := s, speedLimit := sl, t1 := t1, x1 := x1, t2 := t2, x2 := x2,
                t3 := t3, startTime := startTime, isConfiguredFlag := true })

/-- Acceleration-phase formulas of `calculateMotion` (branch `0 <= t <= t1`). -/
noncomputable def accelPhase (st : TrapezoidalMotionProfile) (t : ℝ) : TMPResult :=
  { position := st.x0 + st.s * st.acceleration * t * t / 2
    speed := st.acceleration * t
    acceleration := st.acceleration }

/-- Cruise-phase formulas of `calculateMotion` (branch `t1 < t < t2`). -/
noncomputable def cruisePhase (st : TrapezoidalMotionProfile) (t : ℝ) : TMPResult :=
  { position := st.x1 + st.speedLimit * (t - st.t1)
    speed := st.speedLimit
    acceleration := 0 }

/-- Deceleration-phase formulas of `calculateMotion` (branch `t2 <= t <= t3`). -/
noncomputable def decelPhase (st : TrapezoidalMotionProfile) (t : ℝ) : TMPResult :=
  { position := st.x2 + st.speedLimit * (t - st.t2)
                 - st.s * st.acceleration * (t - st.t2) * (t - st.t2) / 2
    speed := st.speedLimit - st.acceleration * (t - st.t2)
    acceleration := -st.acceleration }

/-- Translation of `calculateMotion(timePoint)` (a const query: the
`validCheck` state effect is discarded).  A time past all three phase
ranges falls through to the value-initialized `TMPResult`. -/
noncomputable def calculateMotion (st : TrapezoidalMotionProfile)
    (timePoint : ℝ) : Except Error TMPResult :=
  let e := (validCheck st).1
  if e.errcode = .reachedTheTarget then
    .error { errcode := e.errcode,
             msg := "Already supposed to have reached the requested target position. No farther motion calculation will be conducted, you should call endMotion() or start new motion" }
  else if e.isErr then .error e
  else
    let t := timePoint - st.startTime
    if t < 0 then
      .error { errcode := .invalidArgument,
               msg := "The given motion time point is less than the start of motion time. This is invalid behaviour, you should properly configure TMP and pass right time" }
    else if 0 ≤ t ∧ t ≤ st.t1 then .ok (accelPhase st t)
    else if st.t1 < t ∧ t < st.t2 then .ok (cruisePhase st t)
    else if st.t2 ≤ t ∧ t ≤ st.t3 then .ok (decelPhase st t)
    else .ok {}

end TrapezoidalMotionProfile

/-- State of `PIDRegulator<T, TimeType>`: gains, previous error, integral
accumulator, target and previous time, with zero defaults. -/
structure PIDRegulator where
  Kp : ℝ := 0
  Ki : ℝ := 0
  Kd : ℝ := 0
  errold : ℝ := 0
  integral : ℝ := 0
  target : ℝ := 0
  prevTime : ℝ := 0

namespace PIDRegulator

/-- Translation of the three-argument `compute(measured, target, time)`:
returns the output together with the mutated regulator state. -/
noncomputable def compute (st : PIDRegulator) (measured target time : ℝ) :
    ℝ × PIDRegulator :=
  let error := target - measured
  if st.prevTime = 0 then
    (st.Kp * error, { st with prevTime := time, errold := error })
  else
    let timeStep := time - st.prevTime
    let integral := st.integral + error * timeStep
    let derivative := if timeStep > 0 then (error - st.errold) / timeStep else 0
    let output := st.Kp * error + st.Ki * integral + st.Kd * derivative
    (output, { st with integral := integral, errold := error, prevTime := time })

/-- Translation of the two-argument `compute(measured, time)` which reuses
the stored target. -/
noncomputable def compute2 (st : PIDRegulator) (measured time : ℝ) :
    ℝ × PIDRegulator :=
  compute st measured st.target time

end PIDRegulator

/-- Three-component vector (`core::Vector<T>`); `at(0)/at(1)/at(2)` are the
`x`/`y`/`z` accessors. -/
structure Vector3 where
  x : ℝ := 0
  y : ℝ := 0
  z : ℝ := 0

/-- Modelled from the spec (the `core::Integrator` of vislib.hpp is not in
the sources): a NumericIntegrator accumulates a running integral of a rate
signal over elapsed time and offers get/set of the accumulated value.  Its
state is the accumulated value plus the last update time. -/
structure Integrator where
  integral : ℝ := 0
  prevTime : ℝ := 0

namespace Integrator

/-- Modelled from the spec: `update(time, rate)` accumulates
`rate * (time - prevTime)` into the stored integral, advances the stored
time, and returns the new accumulated value. -/
noncomputable def update (I : Integrator) (time rate : ℝ) :
    Except Error ℝ × Integrator :=
  let v := I.integral + rate * (time - I.prevTime)
  (.ok v, { integral := v, prevTime := time })

/-- Modelled from the spec: read of the accumulated value. -/
def getIntegral (I : Integrator) : ℝ := I.integral

/-- Modelled from the spec: overwrite of the accumulated value. -/
def setIntegral (I : Integrator) (v : ℝ) : Integrator := { I with integral := v }

end Integrator

/-- Per-axis estimator configuration (`YPRElementCalculatorConfig`):
blend weight, offset, and the owned integrator. -/
structure YPRElementCalculatorConfig where
  integralWeight : ℝ := 1
  offset : ℝ := 0
  integrator : Integrator := {}

/-- Modelled from the spec (libm is external): two-argument arctangent.
Only its type matters for the claims; no theorem inspects its value. -/
noncomputable def atan2 (y x : ℝ) : ℝ :=
  if 0 < x then Real.arctan (y / x)
  else if x < 0 then
    (if 0 ≤ y then Real.arctan (y / x) + Real.pi else Real.arctan (y / x) - Real.pi)
  else if 0 < y then Real.pi / 2
  else if y < 0 then -(Real.pi / 2)
  else 0

/-- Modelled from the spec (vislib.hpp is not in the sources):
`core::rad2Deg`. -/
noncomputable def rad2Deg (x : ℝ) : ℝ := x * 180 / Real.pi

/-- Translation of
`PitchCalculatorWithAcceleration::internalNonIntegralPartPitchCalculation`:
the accelerometer-based absolute pitch correction hook.  The result of the
`getAcceleration()` capability call is passed in as `accRes`. -/
noncomputable def internalNonIntegralPartPitchCalculationAcc
    (accRes : Except Error Vector3) : Except Error ℝ :=
  match accRes with
  | .error e => .error e
  | .ok a =>
    let accY := a.y
    let accZ := a.z
    let temp := Real.sqrt (accY * accY + accZ * accZ)
    if temp = 0 then .ok 0
    else .ok (rad2Deg (atan2 accY temp))

/-- Translation of `PitchCalculator::calculatePitch(currentTime)` for a
pitch calculator whose correction hook is the acceleration-based override.
The results of the two external capability calls (`getAngularSpeed()` and
the hook's `getAcceleration()`) are passed in; the returned pair is the
C++ return value together with the estimator state (its `pitchConfig`)
after the call. -/
noncomputable def calculatePitch (cfg : YPRElementCalculatorConfig)
    (currentTime : ℝ) (angularSpeedRes : Except Error Vector3)
    (accRes : Except Error Vector3) :
    Except Error ℝ × YPRElementCalculatorConfig :=
  match angularSpeedRes with
  | .error e => (.error e, cfg)
  | .ok w =>
    let up := cfg.integrator.update currentTime w.y
    match up.1 with
    | .error e => (.error e, { cfg with integrator := up.2 })
    | .ok temp =>
      match internalNonIntegralPartPitchCalculationAcc accRes with
      | .error e => (.error e, { cfg with integrator := up.2 })
      | .ok nonIntegral =>
        let blended := temp * cfg.integralWeight + nonIntegral * (1 - cfg.integralWeight)
        let integ2 := up.2.setIntegral blended
        (.ok integ2.getIntegral, { cfg with integrator := integ2 })

/-- Modelled from the spec (vislib.hpp is not in the sources): `core::Range`
with its two bounds. -/
structure Range where
  lo : ℝ := 0
  hi : ℝ := 0

namespace Range

/-- Modelled from the spec: membership in a closed range. -/
noncomputable def contains (r : Range) (x : ℝ) : Bool :=
  decide (r.lo ≤ x ∧ x ≤ r.hi)

/-- Modelled from the spec: clamping a value into the range. -/
noncomputable def restrictTo (r : Range) (x : ℝ) : ℝ :=
  if x < r.lo then r.lo else if r.hi < x then r.hi else x

/-- Modelled from the spec: the linear mapping relating the interface and
physical speed domains; maps `x` from range `r` onto range `target`. -/
noncomputable def mapValueToRange (r : Range) (x : ℝ) (target : Range) : ℝ :=
  (x - r.lo) * (target.hi - target.lo) / (r.hi - r.lo) + target.lo

end Range

/-- Per-wheel static description (`motor::MotorInfo`) with the C++ member
initializer defaults. -/
structure MotorInfo where
  anglePos : ℝ := 0
  distance : ℝ := 1
  wheelR : ℝ := 1
  speedRange : Range := {}
  interfaceSpeedRange : Range := {}
  isReversed : Bool := false
  parallelAxisesAmount : ℕ := 1

namespace RangedSpeedController

/-- Translation of `RangedSpeedController::setSpeed(speed)`: the raw value
it hands to `setSpeedRaw` (sign inverted when reversed, restricted to the
interface range, then linearly mapped onto the physical range). -/
noncomputable def setSpeedRawValue (info : MotorInfo) (speed : ℝ) : ℝ :=
  info.interfaceSpeedRange.mapValueToRange
    (info.interfaceSpeedRange.restrictTo (if info.isReversed then -speed else speed))
    info.speedRange

/-- Translation of `RangedSpeedController::getSpeed()` on a raw driver
value: the raw speed mapped back onto the interface range, negated when
reversed. -/
noncomputable def getSpeedFromRaw (info : MotorInfo) (raw : ℝ) : ℝ :=
  let mapped := info.speedRange.mapValueToRange raw info.interfaceSpeedRange
  if info.isReversed then -mapped else mapped

/-- Round trip of `setSpeed(s)` followed by `getSpeed()` on a driver whose
`getSpeedRaw` returns exactly the value last passed to `setSpeedRaw`. -/
noncomputable def setThenGet (info : MotorInfo) (speed : ℝ) : ℝ :=
  getSpeedFromRaw info (setSpeedRawValue info speed)

end RangedSpeedController

namespace Platform

/-- Message glued before each per-motor failure in `Platform::setSpeeds`. -/
def aggSep : String :=
  "\nAnother error encountered: Could not apply speed to motor controller, error encountered: "

/-- Loop body of `Platform::setSpeeds`: walks the controller/speed pairs,
applying each speed; a failing application overwrites the accumulated
error code and appends its message.  The second component records the
indices of the controllers whose `setSpeed` was invoked. -/
def setSpeedsGo : List ((ℝ → Error) × ℝ) → ℕ → Error → Error × List ℕ
  | [], _, err => (err, [])
  | (c, sp) :: rest, i, err =>
    let e := c sp
    let err1 := if e.isErr then { errcode := e.errcode, msg := err.msg ++ aggSep ++ e.msg } else err
    let r := setSpeedsGo rest (i + 1) err1
    (r.1, i :: r.2)

/-- Translation of `Platform::setSpeeds(speeds)`.  Each controller is
represented by the `core::Error` outcome its `setSpeed` produces for a
given speed; the returned list records which controllers were invoked. -/
def setSpeeds (controllers : List (ℝ → Error)) (speeds : List ℝ) :
    Error × List ℕ :=
  if speeds.length ≠ controllers.length then
    ({ errcode := .invalidArgument,
       msg := "Cannot apply speeds set to controller set as there are different amount of them" }, [])
  else setSpeedsGo (controllers.zip speeds) 0 {}

end Platform

/-- Check of the triangular-loop parallelism test of
`updateParallelAxisesForMotors`: the rounded scaled absolute angle
difference equals 0 or equals 180. -/
noncomputable def parallelTest (precision : ℕ) (a b : ℝ) : Prop :=
  round (|a - b| * (10 : ℝ) ^ precision) = 0 ∨
  round (|a - b| * (10 : ℝ) ^ precision) = 180

noncomputable instance (precision : ℕ) (a b : ℝ) :
    Decidable (parallelTest precision a b) := by
  unfold parallelTest; infer_instance

/-- Angle of the motor at an index of a configuration (`config[i].anglePos`). -/
def angleAt (c : List MotorInfo) (i : ℕ) : ℝ := (c.getD i {}).anglePos

/-- Count of the motor at an index of a configuration
(`config[i].parallelAxisesAmount`). -/
def countAt (c : List MotorInfo) (i : ℕ) : ℕ := (c.getD i {}).parallelAxisesAmount

/-- Increment of `parallelAxisesAmount` at one index
(`config[k].parallelAxisesAmount++`). -/
def bumpAt (k : ℕ) (c : List MotorInfo) : List MotorInfo :=
  c.modify (fun m => { m with parallelAxisesAmount := m.parallelAxisesAmount + 1 }) k

/-- Body of the double loop of `updateParallelAxisesForMotors` for one
index pair: when the parallelism test passes, both indices are bumped. -/
noncomputable def pairStep (precision : ℕ) (c : List MotorInfo) (q : ℕ × ℕ) :
    List MotorInfo :=
  if parallelTest precision (angleAt c q.1) (angleAt c q.2) then
    bumpAt q.1 (bumpAt q.2 c)
  else c

/-- Index pairs visited by the double loop
`for i in [0,n); for j in (i,n)`. -/
def allPairs (n : ℕ) : List (ℕ × ℕ) :=
  (List.range n).flatMap fun i =>
    ((List.range n).filter fun j => i < j).map fun j => (i, j)

/-- Translation of `updateParallelAxisesForMotors(config, precision)`:
every count is reset to 1, then the triangular double loop increments the
counts of every pair passing the parallelism test. -/
noncomputable def updateParallelAxisesForMotors (config : List MotorInfo)
    (precision : ℕ) : List MotorInfo :=
  (allPairs config.length).foldl (pairStep precision)
    (config.map fun m => { m with parallelAxisesAmount := 1 })

/-- Modelled from the spec (vislib.hpp is not in the sources):
`core::cosDegrees`, cosine of an angle given in degrees. -/
noncomputable def cosDegrees (x : ℝ) : ℝ := Real.cos (x * Real.pi / 180)

/-- Translation of `calculators::calculateMotorLinearSpeed(info, angle,
speed)`. -/
noncomputable def calculateMotorLinearSpeed (info : MotorInfo) (angle : ℝ)
    (speed : ℝ) : Except Error ℝ :=
  if info.parallelAxisesAmount = 0 then
    .error { errcode := .invalidArgument,
             msg := "amount of motors with parallel movement axises cannot be zero in motor config" }
  else if ¬ info.interfaceSpeedRange.contains speed then
    .error { errcode := .outOfRange,
             msg := "the given speed is not in the configured motor interface speed range" }
  else
    .ok (cosDegrees (angle - info.anglePos) * speed /
          (info.parallelAxisesAmount : ℝ) / info.wheelR)

/-- Error code carried by a `core::Result` value: `success` on a payload. -/
def resultCode {α : Type} : Except Error α → ErrorCode
  | .error e => e.errcode
  | .ok _ => .success

/-- Specification-side description of the aggregate message built by
`Platform::setSpeeds`: the concatenation, in order, of the separator plus
message of every failing per-motor error. -/
def aggregateMsg : List Error → String
  | [] => ""
  | e :: rs => (if e.isErr then Platform.aggSep ++ e.msg else "") ++ aggregateMsg rs

/-- Specification-side error code of the combined `Platform::setSpeeds`
error: the code of the last per-motor failure, or success if none fail. -/
def lastFailCode (rs : List Error) : ErrorCode :=
  ((rs.filter Error.isErr).getLastD { errcode := .success, msg := "" }).errcode

/-- Per-motor `setSpeed` outcomes of a controller/speed pairing. -/
def applyResults (controllers : List (ℝ → Error)) (speeds : List ℝ) : List Error :=
  (controllers.zip speeds).map fun p => p.1 p.2

/-- Specification-side peer count of a wheel: the number of other wheels
whose mount angle passes the parallelism test against its own. -/
noncomputable def parallelPeerCount (config : List MotorInfo) (precision idx : ℕ) : ℕ :=
  (List.range config.length).countP
    (fun j => decide (j ≠ idx ∧ parallelTest precision (angleAt config idx) (angleAt config j)))

/-! Helper lemmas. -/

lemma errcode_getLastD (l : List Error) (a b : Error) (h : a.errcode = b.errcode) :
    (l.getLastD a).errcode = (l.getLastD b).errcode := by
  rw [List.getLastD_eq_getLast?, List.getLastD_eq_getLast?]
  cases hl : l.getLast? <;> simp [h]

lemma setSpeedsGo_cons (p : (ℝ → Error) × ℝ) (rest : List ((ℝ → Error) × ℝ))
    (i : ℕ) (err : Error) :
    Platform.setSpeedsGo (p :: rest) i err =
      ((Platform.setSpeedsGo rest (i + 1)
          (if (p.1 p.2).isErr then
            { errcode := (p.1 p.2).errcode,
              msg := err.msg ++ Platform.aggSep ++ (p.1 p.2).msg }
           else err)).1,
       i :: (Platform.setSpeedsGo rest (i + 1)
          (if (p.1 p.2).isErr then
            { errcode := (p.1 p.2).errcode,
              msg := err.msg ++ Platform.aggSep ++ (p.1 p.2).msg }
           else err)).2) := rfl

/-- Loop invariant of `Platform::setSpeeds`: the loop touches exactly the
indices of its pair list in order, concatenates every failing message onto
the accumulator, and ends with the code of the last failure (or the
accumulator's code when none fails). -/
lemma setSpeedsGo_spec (ps : List ((ℝ → Error) × ℝ)) (i : ℕ) (err : Error) :
    (Platform.setSpeedsGo ps i err).2 = List.range' i ps.length ∧
    (Platform.setSpeedsGo ps i err).1.msg
      = err.msg ++ aggregateMsg (ps.map fun p => p.1 p.2) ∧
    (Platform.setSpeedsGo ps i err).1.errcode =
      (((ps.map fun p => p.1 p.2).filter Error.isErr).getLastD err).errcode := by
  induction ps generalizing i err with
  | nil => simp [Platform.setSpeedsGo, aggregateMsg]
  | cons p rest ih =>
    rw [setSpeedsGo_cons]
    by_cases he : (p.1 p.2).isErr
    · obtain ⟨ih1, ih2, ih3⟩ := ih (i + 1)
        { errcode := (p.1 p.2).errcode,
          msg := err.msg ++ Platform.aggSep ++ (p.1 p.2).msg }
      rw [if_pos he]
      refine ⟨?_, ?_, ?_⟩
      · simp [ih1, List.range'_succ]
      · rw [ih2]
        simp only [aggregateMsg, List.map_cons, he, if_true]
        simp [String.append_assoc]
      · rw [ih3]
        simp only [List.map_cons, List.filter_cons, he, if_true]
        rw [List.getLastD_cons]
        exact errcode_getLastD _ _ _ rfl
    · obtain ⟨ih1, ih2, ih3⟩ := ih (i + 1) err
      rw [if_neg he]
      refine ⟨?_, ?_, ?_⟩
      · simp [ih1, List.range'_succ]
      · rw [ih2]
        simp only [aggregateMsg, List.map_cons, he, if_false]
        simp
      · rw [ih3]
        simp only [List.map_cons, List.filter_cons, he, if_false]
        simp [he]

lemma success_eq_rtt_false :
    (ErrorCode.success = ErrorCode.reachedTheTarget) = False := by decide

lemma invCfg_eq_rtt_false :
    (ErrorCode.invalidConfiguration = ErrorCode.reachedTheTarget) = False := by decide

lemma invCfg_eq_success_false :
    (ErrorCode.invalidConfiguration = ErrorCode.success) = False := by decide

lemma sqrt_hundred : Real.sqrt 100 = 10 := by
  rw [show (100 : ℝ) = 10 ^ 2 by norm_num, Real.sqrt_sq (by norm_num : (0:ℝ) ≤ 10)]

namespace TrapezoidalMotionProfile

/-- Concrete evaluation: a positive-direction start with acceleration 1,
speed limit 2, from 0 to 100. -/
lemma startMotion_eval_pos : (TrapezoidalMotionProfile.mk2 1 2).startMotion 0 100 0 =
    ({ errcode := .success, msg := "" },
     { acceleration := 1, speedLimit := 2, t1 := 2, t2 := 50, t3 := 52,
       x1 := 2, x2 := 50, startTime := 0, x0 := 0, xt := 100, s := 1,
       isConfiguredFlag := true }) := by
  unfold startMotion isConfiguredAsErr validCheck mk2
  norm_num [Error.isErr, signF, minF, absF, sqrt_hundred]

/-- Concrete evaluation: a negative-direction start with acceleration 1,
speed limit 2, from 100 to 0; the stored speed limit becomes negative. -/
lemma startMotion_eval_neg : (TrapezoidalMotionProfile.mk2 1 2).startMotion 100 0 0 =
    ({ errcode := .success, msg := "" },
     { acceleration := 1, speedLimit := -2, t1 := 2, t2 := 50, t3 := 52,
       x1 := 98, x2 := 146, startTime := 0, x0 := 100, xt := 0, s := -1,
       isConfiguredFlag := true }) := by
  unfold startMotion isConfiguredAsErr validCheck mk2
  norm_num [Error.isErr, signF, minF, absF, sqrt_hundred]

/-- Behaviour of `calculateMotion` strictly past the motion end for a
well-formed positive-direction profile state: the query falls through all
three phase branches and returns the value-initialized result. -/
lemma calculateMotion_past_end (st : TrapezoidalMotionProfile) (tp : ℝ)
    (hne : st.x0 ≠ st.xt) (hacc : 0 < st.acceleration) (hsl : 0 < st.speedLimit)
    (h1 : st.t1 ≤ st.t3) (h2 : st.t2 ≤ st.t3) (h0 : 0 ≤ st.t3)
    (ht3 : st.t3 < tp - st.startTime) :
    calculateMotion st tp = .ok {} := by
  unfold calculateMotion validCheck
  have hτ0 : ¬ (tp - st.startTime < 0) := not_lt.mpr (le_trans h0 ht3.le)
  have hb1 : ¬ (tp - st.startTime ≤ st.t1) := not_le.mpr (lt_of_le_of_lt h1 ht3)
  have hb2 : ¬ (tp - st.startTime < st.t2) := not_lt.mpr (le_of_lt (lt_of_le_of_lt h2 ht3))
  have hb3 : ¬ (tp - st.startTime ≤ st.t3) := not_le.mpr ht3
  simp [hne, not_le.mpr hacc, not_le.mpr hsl, Error.isErr,
    success_eq_rtt_false, hτ0, hb1, hb2, hb3]

/-- Concrete evaluation: a query on the negative-direction profile above
fails `invalidConfiguration`, because the stored speed limit is negative. -/
lemma calculateMotion_eval_negProfile : calculateMotion
    { acceleration := 1, speedLimit := -2, t1 := 2, t2 := 50, t3 := 52,
      x1 := 98, x2 := 146, startTime := 0, x0 := 100, xt := 0, s := -1,
      isConfiguredFlag := true } 10 =
    .error { errcode := .invalidConfiguration,
             msg := "The motion controller does not support speed limit equal or below zero and is supposed to work with positive values" } := by
  unfold calculateMotion validCheck
  norm_num [Error.isErr, invCfg_eq_rtt_false, invCfg_eq_success_false]

/-- Concrete evaluation: a query at exactly `t3` on the positive-direction
profile above is served by the deceleration branch. -/
lemma calculateMotion_eval_atT3 : calculateMotion
    { acceleration := 1, speedLimit := 2, t1 := 2, t2 := 50, t3 := 52,
      x1 := 2, x2 := 50, startTime := 0, x0 := 0, xt := 100, s := 1,
      isConfiguredFlag := true } 52 =
    .ok { position := 52, speed := 0, acceleration := -1 } := by
  unfold calculateMotion validCheck decelPhase
  norm_num [Error.isErr, success_eq_rtt_false]

/-- Unfolding of a successful positive-direction `startMotion` on a freshly
constructed profile, with every derived field spelled out. -/
lemma startMotion_pos_run (acc lim x0 xt t0 : ℝ)
    (hacc : 0 < acc) (hlim : 0 < lim) (hdir : x0 < xt) :
    (TrapezoidalMotionProfile.mk2 acc lim).startMotion x0 xt t0 =
    ({ errcode := .success, msg := "" },
     { acceleration := acc
       speedLimit := min lim (Real.sqrt (acc * (xt - x0)))
       t1 := min lim (Real.sqrt (acc * (xt - x0))) / acc
       x1 := x0 + acc * (min lim (Real.sqrt (acc * (xt - x0))) / acc) *
               (min lim (Real.sqrt (acc * (xt - x0))) / acc) / 2
       t2 := min lim (Real.sqrt (acc * (xt - x0))) / acc +
               (xt + x0 - 2 * (x0 + acc * (min lim (Real.sqrt (acc * (xt - x0))) / acc) *
                 (min lim (Real.sqrt (acc * (xt - x0))) / acc) / 2)) /
                 min lim (Real.sqrt (acc * (xt - x0)))
       x2 := x0 + acc * (min lim (Real.sqrt (acc * (xt - x0))) / acc) *
               (min lim (Real.sqrt (acc * (xt - x0))) / acc) / 2 +
             acc * ((xt + x0 - 2 * (x0 + acc * (min lim (Real.sqrt (acc * (xt - x0))) / acc) *
                 (min lim (Real.sqrt (acc * (xt - x0))) / acc) / 2)) /
                 min lim (Real.sqrt (acc * (xt - x0))))
       t3 := min lim (Real.sqrt (acc * (xt - x0))) / acc +
             (min lim (Real.sqrt (acc * (xt - x0))) / acc +
               (xt + x0 - 2 * (x0 + acc * (min lim (Real.sqrt (acc * (xt - x0))) / acc) *
                 (min lim (Real.sqrt (acc * (xt - x0))) / acc) / 2)) /
                 min lim (Real.sqrt (acc * (xt - x0))))
       startTime := t0
       x0 := x0
       xt := xt
       s := 1
       isConfiguredFlag := true }) := by
  have hd : 0 < xt - x0 := sub_pos.mpr hdir
  have hmul : 0 < acc * (xt - x0) := mul_pos hacc hd
  have hs : signF (xt - x0) = 1 := by unfold signF; rw [if_pos hd]
  have habs : |acc * (xt - x0)| = acc * (xt - x0) := abs_of_pos hmul
  have hV : 0 < min lim (Real.sqrt (acc * (xt - x0))) :=
    lt_min hlim (Real.sqrt_pos.mpr hmul)
  have habsV : |min lim (Real.sqrt (acc * (xt - x0)))| =
      min lim (Real.sqrt (acc * (xt - x0))) := abs_of_pos hV
  unfold startMotion isConfiguredAsErr validCheck mk2
  simp [Error.isErr, minF, absF, (ne_of_lt hdir),
    not_le.mpr hacc, not_le.mpr hlim, hs, habs, habsV]

/-- Selected fields of a successful negative-direction `startMotion` on a
freshly constructed profile: the stored speed limit becomes the negated
effective limit. -/
lemma startMotion_neg_fields (acc lim x0 xt t0 : ℝ)
    (hacc : 0 < acc) (hlim : 0 < lim) (hdir : xt < x0) :
    ((TrapezoidalMotionProfile.mk2 acc lim).startMotion x0 xt t0).1.errcode
      = ErrorCode.success ∧
    ((TrapezoidalMotionProfile.mk2 acc lim).startMotion x0 xt t0).2.speedLimit
      = -min lim (Real.sqrt (acc * (x0 - xt))) ∧
    ((TrapezoidalMotionProfile.mk2 acc lim).startMotion x0 xt t0).2.acceleration
      = acc := by
  have hd : xt - x0 < 0 := sub_neg.mpr hdir
  have hs : signF (xt - x0) = -1 := by
    unfold signF; rw [if_neg (by linarith), if_pos hd]
  have habs : |acc * (xt - x0)| = acc * (x0 - xt) := by
    rw [abs_of_neg (mul_neg_of_pos_of_neg hacc hd)]; ring
  unfold startMotion isConfiguredAsErr validCheck mk2
  simp [Error.isErr, minF, absF, (ne_of_gt hdir : x0 ≠ xt), hs, habs,
    not_le.mpr hacc, not_le.mpr hlim]

/-- Failure of any `startMotion` call on a state whose stored speed limit
is non-positive while its acceleration is positive. -/
lemma startMotion_nonpos_speedLimit (st : TrapezoidalMotionProfile)
    (x0' xt' t0' : ℝ) (hne : x0' ≠ xt') (hA : 0 < st.acceleration)
    (hL : st.speedLimit ≤ 0) :
    (st.startMotion x0' xt' t0').1.errcode = ErrorCode.invalidConfiguration ∧
    (st.startMotion x0' xt' t0').2 = init := by
  unfold startMotion isConfiguredAsErr validCheck
  simp [hne, not_le.mpr hA, hL, Error.isErr]

end TrapezoidalMotionProfile

lemma parallelTest_symm (p : ℕ) (a b : ℝ) : parallelTest p a b ↔ parallelTest p b a := by
  unfold parallelTest
  rw [abs_sub_comm]

lemma length_bumpAt (k : ℕ) (c : List MotorInfo) : (bumpAt k c).length = c.length := by
  simp [bumpAt]

lemma angleAt_bumpAt (k : ℕ) (c : List MotorInfo) (i : ℕ) :
    angleAt (bumpAt k c) i = angleAt c i := by
  unfold angleAt bumpAt
  rw [List.getD_eq_getElem?_getD, List.getD_eq_getElem?_getD, List.getElem?_modify]
  cases h : getElem? c i with
  | none => simp [h]
  | some m => by_cases hk : k = i <;> simp [h, hk]

lemma countAt_bumpAt (k : ℕ) (c : List MotorInfo) (i : ℕ) (hk : k < c.length) :
    countAt (bumpAt k c) i = if i = k then countAt c i + 1 else countAt c i := by
  unfold countAt bumpAt
  rw [List.getD_eq_getElem?_getD, List.getD_eq_getElem?_getD, List.getElem?_modify]
  by_cases hik : i = k
  · subst hik
    rw [List.getElem?_eq_getElem hk]
    simp
  · have hki : ¬ (k = i) := fun h => hik h.symm
    cases h : getElem? c i <;> simp [h, hki, hik]

lemma length_pairStep (prec : ℕ) (c : List MotorInfo) (q : ℕ × ℕ) :
    (pairStep prec c q).length = c.length := by
  unfold pairStep
  split <;> simp [length_bumpAt]

lemma angleAt_pairStep (prec : ℕ) (c : List MotorInfo) (q : ℕ × ℕ) (i : ℕ) :
    angleAt (pairStep prec c q) i = angleAt c i := by
  unfold pairStep
  split <;> simp [angleAt_bumpAt]

lemma countAt_pairStep (prec : ℕ) (c : List MotorInfo) (q : ℕ × ℕ) (i : ℕ)
    (h1 : q.1 < c.length) (h2 : q.2 < c.length) (hne : q.1 ≠ q.2) :
    countAt (pairStep prec c q) i = countAt c i +
      (if parallelTest prec (angleAt c q.1) (angleAt c q.2) ∧ (q.1 = i ∨ q.2 = i)
       then 1 else 0) := by
  unfold pairStep
  by_cases hp : parallelTest prec (angleAt c q.1) (angleAt c q.2)
  · rw [if_pos hp, countAt_bumpAt _ _ _ (by rw [length_bumpAt]; exact h1),
      countAt_bumpAt _ _ _ h2]
    by_cases hi1 : i = q.1
    · have hi2 : ¬ (i = q.2) := fun h => hne (hi1 ▸ h ▸ rfl)
      simp [hi1, hi2, hp]
      omega
    · by_cases hi2 : i = q.2 <;> simp [hi1, hi2, hp] <;> omega
  · rw [if_neg hp]
    simp [hp]

/-- Accumulated effect of the double loop of
`updateParallelAxisesForMotors` on one wheel count: the initial count
plus the number of processed pairs that pass the parallelism test and
touch the index. -/
lemma countAt_foldl (prec : ℕ) (P : List (ℕ × ℕ)) (c : List MotorInfo) (i : ℕ)
    (hP : ∀ q ∈ P, q.1 < c.length ∧ q.2 < c.length ∧ q.1 ≠ q.2) :
    countAt (P.foldl (pairStep prec) c) i = countAt c i +
      P.countP (fun q =>
        decide (parallelTest prec (angleAt c q.1) (angleAt c q.2) ∧ (q.1 = i ∨ q.2 = i))) := by
  induction P generalizing c with
  | nil => simp
  | cons q rest ih =>
    rw [List.foldl_cons]
    have hq := hP q (List.mem_cons_self q rest)
    have hrest : ∀ r ∈ rest,
        r.1 < (pairStep prec c q).length ∧ r.2 < (pairStep prec c q).length ∧ r.1 ≠ r.2 := by
      intro r hr
      rw [length_pairStep]
      exact hP r (List.mem_cons_of_mem _ hr)
    rw [ih _ hrest]
    have hpredeq : (fun r : ℕ × ℕ =>
        decide (parallelTest prec (angleAt (pairStep prec c q) r.1)
          (angleAt (pairStep prec c q) r.2) ∧ (r.1 = i ∨ r.2 = i))) =
        (fun r : ℕ × ℕ =>
        decide (parallelTest prec (angleAt c r.1) (angleAt c r.2) ∧ (r.1 = i ∨ r.2 = i))) := by
      funext r
      rw [angleAt_pairStep, angleAt_pairStep]
    rw [hpredeq, countAt_pairStep prec c q i hq.1 hq.2.1 hq.2.2, List.countP_cons]
    simp only [decide_eq_true_eq]
    omega

lemma countAt_reset (config : List MotorInfo) (i : ℕ) (h : i < config.length) :
    countAt (config.map fun m => { m with parallelAxisesAmount := 1 }) i = 1 := by
  unfold countAt
  rw [List.getD_eq_getElem?_getD, List.getElem?_map, List.getElem?_eq_getElem h]
  simp

lemma angleAt_reset (config : List MotorInfo) (i : ℕ) :
    angleAt (config.map fun m => { m with parallelAxisesAmount := 1 }) i = angleAt config i := by
  unfold angleAt
  rw [List.getD_eq_getElem?_getD, List.getD_eq_getElem?_getD, List.getElem?_map]
  cases h : getElem? config i <;> simp [h]

lemma mem_allPairs (n : ℕ) (q : ℕ × ℕ) (h : q ∈ allPairs n) :
    q.1 < q.2 ∧ q.2 < n := by
  unfold allPairs at h
  simp only [List.mem_flatMap, List.mem_map, List.mem_filter, List.mem_range] at h
  obtain ⟨i, _, j, ⟨hj, hij⟩, rfl⟩ := h
  exact ⟨by simpa using hij, hj⟩

lemma countP_flatMap {α β : Type} (p : β → Bool) (f : α → List β) (l : List α) :
    (l.flatMap f).countP p = (l.map fun a => (f a).countP p).sum := by
  induction l with
  | nil => simp
  | cons a l ih => simp [List.flatMap_cons, List.countP_append, ih]

lemma sum_map_range (n : ℕ) (f : ℕ → ℕ) :
    ((List.range n).map f).sum = ∑ i in Finset.range n, f i := by
  induction n with
  | zero => simp
  | succ m ih => simp [List.range_succ, Finset.sum_range_succ, ih]

lemma countP_range_card (n : ℕ) (p : ℕ → Prop) [DecidablePred p] :
    (List.range n).countP (fun a => decide (p a)) = ((Finset.range n).filter p).card := by
  induction n with
  | zero => simp
  | succ m ih =>
    rw [List.range_succ, List.countP_append, ih, Finset.range_succ, Finset.filter_insert]
    by_cases hp : p m
    · rw [if_pos hp, Finset.card_insert_of_not_mem (by simp)]
      simp [hp, List.countP_cons]
    · rw [if_neg hp]
      simp [hp, List.countP_cons]

lemma pair_ite_split (B : ℕ → ℕ → Prop) [∀ a b, Decidable (B a b)] (idx i j : ℕ) :
    (if (B i j ∧ (i = idx ∨ j = idx)) ∧ i < j then 1 else 0) =
      (if i = idx ∧ idx < j ∧ B idx j then 1 else 0) +
      (if j = idx ∧ i < idx ∧ B i idx then 1 else 0) := by
  by_cases hij : i < j
  · by_cases hi : i = idx
    · have c3 : ¬ (j = idx ∧ i < idx ∧ B i idx) := by
        rintro ⟨h1, h2, _⟩
        omega
      by_cases hB : B i j
      · have e1 : (B i j ∧ (i = idx ∨ j = idx)) ∧ i < j := ⟨⟨hB, Or.inl hi⟩, hij⟩
        have e2 : i = idx ∧ idx < j ∧ B idx j := ⟨hi, by omega, by rwa [← hi]⟩
        rw [if_pos e1, if_pos e2, if_neg c3]
      · have c1 : ¬ ((B i j ∧ (i = idx ∨ j = idx)) ∧ i < j) := fun h => hB h.1.1
        have c2 : ¬ (i = idx ∧ idx < j ∧ B idx j) := fun h => hB (by rw [hi]; exact h.2.2)
        rw [if_neg c1, if_neg c2, if_neg c3]
    · by_cases hj : j = idx
      · have c2 : ¬ (i = idx ∧ idx < j ∧ B idx j) := fun h => hi h.1
        by_cases hB : B i j
        · have e1 : (B i j ∧ (i = idx ∨ j = idx)) ∧ i < j := ⟨⟨hB, Or.inr hj⟩, hij⟩
          have e3 : j = idx ∧ i < idx ∧ B i idx := ⟨hj, by omega, by rwa [← hj]⟩
          rw [if_pos e1, if_neg c2, if_pos e3]
        · have c1 : ¬ ((B i j ∧ (i = idx ∨ j = idx)) ∧ i < j) := fun h => hB h.1.1
          have c3 : ¬ (j = idx ∧ i < idx ∧ B i idx) := fun h => hB (by rw [hj]; exact h.2.2)
          rw [if_neg c1, if_neg c2, if_neg c3]
      · have c1 : ¬ ((B i j ∧ (i = idx ∨ j = idx)) ∧ i < j) := fun h => h.1.2.elim hi hj
        have c2 : ¬ (i = idx ∧ idx < j ∧ B idx j) := fun h => hi h.1
        have c3 : ¬ (j = idx ∧ i < idx ∧ B i idx) := fun h => hj h.1
        rw [if_neg c1, if_neg c2, if_neg c3]
  · have c1 : ¬ ((B i j ∧ (i = idx ∨ j = idx)) ∧ i < j) := fun h => hij h.2
    have c2 : ¬ (i = idx ∧ idx < j ∧ B idx j) := by
      rintro ⟨h1, h2, _⟩
      omega
    have c3 : ¬ (j = idx ∧ i < idx ∧ B i idx) := by
      rintro ⟨h1, h2, _⟩
      omega
    rw [if_neg c1, if_neg c2, if_neg c3]

lemma neq_ite_split (C : ℕ → Prop) [DecidablePred C] (idx j : ℕ) :
    (if j ≠ idx ∧ C j then 1 else 0) =
      (if j < idx ∧ C j then 1 else 0) + (if idx < j ∧ C j then 1 else 0) := by
  by_cases hC : C j
  · rcases Nat.lt_trichotomy j idx with h | h | h
    · rw [if_pos ⟨by omega, hC⟩, if_pos ⟨h, hC⟩, if_neg (by rintro ⟨h2, _⟩; omega)]
    · rw [if_neg (by rintro ⟨h2, _⟩; omega), if_neg (by rintro ⟨h2, _⟩; omega),
        if_neg (by rintro ⟨h2, _⟩; omega)]
    · rw [if_pos ⟨by omega, hC⟩, if_neg (by rintro ⟨h2, _⟩; omega), if_pos ⟨h, hC⟩]
  · rw [if_neg (fun h => hC h.2), if_neg (fun h => hC h.2), if_neg (fun h => hC h.2)]

/-- Pairs of the triangular double loop touching a fixed index, counted
against a symmetric test, are exactly the other indices passing the test
against the fixed one. -/
lemma countP_allPairs (n idx : ℕ) (hidx : idx < n) (B : ℕ → ℕ → Prop)
    [∀ a b, Decidable (B a b)] (hsymm : ∀ a b, B a b ↔ B b a) :
    (allPairs n).countP (fun q => decide (B q.1 q.2 ∧ (q.1 = idx ∨ q.2 = idx))) =
      (List.range n).countP (fun j => decide (j ≠ idx ∧ B idx j)) := by
  unfold allPairs
  rw [countP_flatMap]
  have hinner : ∀ i : ℕ,
      (((List.range n).filter fun j => i < j).map fun j => ((i, j) : ℕ × ℕ)).countP
        (fun q => decide (B q.1 q.2 ∧ (q.1 = idx ∨ q.2 = idx)))
      = ((Finset.range n).filter fun j => (B i j ∧ (i = idx ∨ j = idx)) ∧ i < j).card := by
    intro i
    rw [List.countP_map, List.countP_filter]
    have hfun : (fun j => ((fun q : ℕ × ℕ => decide (B q.1 q.2 ∧ (q.1 = idx ∨ q.2 = idx))) ∘
          fun j => ((i, j) : ℕ × ℕ)) j && decide (i < j))
        = fun j => decide ((B i j ∧ (i = idx ∨ j = idx)) ∧ i < j) := by
      funext j
      by_cases h1 : B i j ∧ (i = idx ∨ j = idx) <;> by_cases h2 : i < j <;>
        simp [h1, h2, Function.comp]
    rw [hfun, countP_range_card]
  rw [sum_map_range, countP_range_card,
    Finset.sum_congr rfl fun i _ => hinner i]
  simp only [Finset.card_filter]
  calc
    ∑ i in Finset.range n, ∑ j in Finset.range n,
        (if (B i j ∧ (i = idx ∨ j = idx)) ∧ i < j then 1 else 0)
      = ∑ i in Finset.range n, ∑ j in Finset.range n,
          ((if i = idx ∧ idx < j ∧ B idx j then 1 else 0) +
           (if j = idx ∧ i < idx ∧ B i idx then 1 else 0)) :=
        Finset.sum_congr rfl fun i _ => Finset.sum_congr rfl fun j _ => pair_ite_split B idx i j
    _ = (∑ i in Finset.range n, ∑ j in Finset.range n,
          (if i = idx ∧ idx < j ∧ B idx j then 1 else 0))
        + (∑ i in Finset.range n, ∑ j in Finset.range n,
          (if j = idx ∧ i < idx ∧ B i idx then 1 else 0)) := by
        rw [← Finset.sum_add_distrib]
        exact Finset.sum_congr rfl fun i _ => by rw [Finset.sum_add_distrib]
    _ = (∑ j in Finset.range n, (if idx < j ∧ B idx j then 1 else 0))
        + (∑ i in Finset.range n, (if i < idx ∧ B i idx then 1 else 0)) := by
        congr 1
        · have hstep : ∀ i : ℕ, (∑ j in Finset.range n,
              (if i = idx ∧ idx < j ∧ B idx j then 1 else 0))
              = if i = idx then (∑ j in Finset.range n, if idx < j ∧ B idx j then 1 else 0)
                else 0 := by
            intro i
            by_cases hi : i = idx
            · simp [hi]
            · simp [hi]
          rw [Finset.sum_congr rfl fun i _ => hstep i,
            Finset.sum_ite_eq' (Finset.range n) idx
              (fun _ => ∑ j in Finset.range n, if idx < j ∧ B idx j then 1 else 0),
            if_pos (Finset.mem_range.mpr hidx)]
        · refine Finset.sum_congr rfl fun i _ => ?_
          by_cases hD : i < idx ∧ B i idx
          · simp only [hD, and_true]
            rw [Finset.sum_ite_eq' (Finset.range n) idx (fun _ => 1),
              if_pos (Finset.mem_range.mpr hidx)]
            simp [hD]
          · simp [hD]
    _ = ∑ j in Finset.range n, (if j ≠ idx ∧ B idx j then 1 else 0) := by
        rw [Finset.sum_congr rfl fun j _ => neq_ite_split (fun j => B idx j) idx j,
          Finset.sum_add_distrib, add_comm]
        congr 1
        refine Finset.sum_congr rfl fun i _ => ?_
        exact if_congr (and_congr_right fun _ => hsymm i idx) rfl rfl

/-- Count of each wheel after `updateParallelAxisesForMotors`: one plus
the number of other wheels passing the parallelism test against it. -/
lemma countAt_update (config : List MotorInfo) (precision idx : ℕ)
    (h : idx < config.length) :
    countAt (updateParallelAxisesForMotors config precision) idx
      = 1 + parallelPeerCount config precision idx := by
  unfold updateParallelAxisesForMotors
  have hmem : ∀ q ∈ allPairs config.length,
      q.1 < (config.map fun m => { m with parallelAxisesAmount := 1 }).length ∧
      q.2 < (config.map fun m => { m with parallelAxisesAmount := 1 }).length ∧ q.1 ≠ q.2 := by
    intro q hq
    obtain ⟨h1, h2⟩ := mem_allPairs _ q hq
    rw [List.length_map]
    exact ⟨lt_trans h1 h2, h2, Nat.ne_of_lt h1⟩
  rw [countAt_foldl _ _ _ _ hmem, countAt_reset _ _ h]
  congr 1
  have hpred : (fun q : ℕ × ℕ =>
      decide (parallelTest precision
        (angleAt (config.map fun m => { m with parallelAxisesAmount := 1 }) q.1)
        (angleAt (config.map fun m => { m with parallelAxisesAmount := 1 }) q.2) ∧
        (q.1 = idx ∨ q.2 = idx))) =
      (fun q : ℕ × ℕ =>
      decide (parallelTest precision (angleAt config q.1) (angleAt config q.2) ∧
        (q.1 = idx ∨ q.2 = idx))) := by
    funext q
    rw [angleAt_reset, angleAt_reset]
  rw [hpred]
  have hmain := countP_allPairs config.length idx h
    (fun a b => parallelTest precision (angleAt config a) (angleAt config b))
    (fun a b => parallelTest_symm precision (angleAt config a) (angleAt config b))
  unfold parallelPeerCount
  exact hmain

lemma round_180R : round ((180:ℝ)) = 180 := by norm_num [round_eq]

lemma round_90R : round ((90:ℝ)) = 90 := by norm_num [round_eq]

lemma round_1800R : round ((1800:ℝ)) = 1800 := by norm_num [round_eq]

/-- Concrete evaluation: motors at angles 0, 180 and 90 with precision 0
receive counts 2, 2 and 1. -/
lemma update_eval_triple :
    updateParallelAxisesForMotors
      [{ anglePos := 0 }, { anglePos := 180 }, { anglePos := 90 }] 0 =
      [{ anglePos := 0, parallelAxisesAmount := 2 },
       { anglePos := 180, parallelAxisesAmount := 2 },
       { anglePos := 90, parallelAxisesAmount := 1 }] := by
  unfold updateParallelAxisesForMotors allPairs
  norm_num [List.range_succ, pairStep, parallelTest, bumpAt, angleAt, List.modify,
    round_180R, round_90R]

/-- Concrete evaluation: motors at exactly opposite angles 0 and 180 with
precision 1 keep counts 1 and 1, because the scaled rounded difference
1800 is compared against the constant 180. -/
lemma update_eval_pair :
    updateParallelAxisesForMotors [{ anglePos := 0 }, { anglePos := 180 }] 1 =
      [{ anglePos := 0, parallelAxisesAmount := 1 },
       { anglePos := 180, parallelAxisesAmount := 1 }] := by
  unfold updateParallelAxisesForMotors allPairs
  norm_num [List.range_succ, pairStep, parallelTest, bumpAt, angleAt, List.modify,
    round_1800R]

/-! Claim theorems. -/

open TrapezoidalMotionProfile in
/-- C1: the claim states that for every successfully started profile with
positive acceleration and speed limit, position and speed are continuous
at the phase boundaries t1 and t2 in both directions.  This theorem
evaluates the code at a failing input: after `startMotion` with
acceleration 1, speed limit 2, from 0 to 100, the boundary t2 is 50, the
cruise-phase position at t2 is 98 while the deceleration-phase position at
t2 is 50 (the code stores `x2 = x1 + acceleration*(t2-t1)` instead of
`x1 + speedLimit*(t2-t1)`); and for the mirrored negative-direction start
from 100 to 0, the acceleration-phase speed at t1 is +2 while the
cruise-phase speed at t1 is -2 (the acceleration-phase speed formula omits
the direction sign). -/
theorem C1_phase_boundary_discontinuity :
    ((TrapezoidalMotionProfile.mk2 1 2).startMotion 0 100 0).1.errcode
      = ErrorCode.success ∧
    ((TrapezoidalMotionProfile.mk2 1 2).startMotion 0 100 0).2.t2 = 50 ∧
    (cruisePhase ((TrapezoidalMotionProfile.mk2 1 2).startMotion 0 100 0).2 50).position = 98 ∧
    (decelPhase ((TrapezoidalMotionProfile.mk2 1 2).startMotion 0 100 0).2 50).position = 50 ∧
    ((TrapezoidalMotionProfile.mk2 1 2).startMotion 100 0 0).2.t1 = 2 ∧
    (accelPhase ((TrapezoidalMotionProfile.mk2 1 2).startMotion 100 0 0).2 2).speed = 2 ∧
    (cruisePhase ((TrapezoidalMotionProfile.mk2 1 2).startMotion 100 0 0).2 2).speed = -2 := by
  rw [startMotion_eval_pos, startMotion_eval_neg]
  norm_num [cruisePhase, decelPhase, accelPhase]

open TrapezoidalMotionProfile in
/-- C2: `startMotion` fails with `reachedTheTarget` whenever the start
position equals the target (whatever the stored constants are), fails with
`invalidConfiguration` whenever they differ but the stored acceleration or
speed limit is non-positive, and each such failure resets the entire
profile state (constants included) to the default-constructed state, whose
configured flag is false. -/
theorem C2_startMotion_failure_resets (st : TrapezoidalMotionProfile)
    (x0 xt t0 : ℝ) :
    (x0 = xt →
      (st.startMotion x0 xt t0).1.errcode = ErrorCode.reachedTheTarget ∧
      (st.startMotion x0 xt t0).2 = init) ∧
    (x0 ≠ xt → st.acceleration ≤ 0 ∨ st.speedLimit ≤ 0 →
      (st.startMotion x0 xt t0).1.errcode = ErrorCode.invalidConfiguration ∧
      (st.startMotion x0 xt t0).2 = init) := by
  unfold startMotion isConfiguredAsErr validCheck
  constructor
  · intro h
    simp [h, Error.isErr]
  · intro hne hcfg
    rcases hcfg with hA | hL
    · simp [hne, hA, Error.isErr]
    · by_cases hA2 : st.acceleration ≤ 0
      · simp [hne, hA2, Error.isErr]
      · simp [hne, hA2, hL, Error.isErr]

open TrapezoidalMotionProfile in
/-- Witness for C2 at concrete inputs: `start(5,5)` on a validly
constructed profile fails `reachedTheTarget` and resets the state, and a
start on a profile constructed with acceleration -1 fails
`invalidConfiguration` and resets the state. -/
theorem C2_startMotion_failure_resets_witness :
    (((TrapezoidalMotionProfile.mk2 1 2).startMotion 5 5 0).1.errcode
        = ErrorCode.reachedTheTarget ∧
      ((TrapezoidalMotionProfile.mk2 1 2).startMotion 5 5 0).2 = init) ∧
    (((TrapezoidalMotionProfile.mk2 (-1) 2).startMotion 0 3 0).1.errcode
        = ErrorCode.invalidConfiguration ∧
      ((TrapezoidalMotionProfile.mk2 (-1) 2).startMotion 0 3 0).2 = init) :=
  ⟨(C2_startMotion_failure_resets (TrapezoidalMotionProfile.mk2 1 2) 5 5 0).1 rfl,
   (C2_startMotion_failure_resets (TrapezoidalMotionProfile.mk2 (-1) 2) 0 3 0).2
     (by norm_num) (Or.inl (by norm_num [TrapezoidalMotionProfile.mk2]))⟩

open TrapezoidalMotionProfile in
/-- C7 counterexample: the claim states that on every successfully
configured profile a query at or past t3 returns the default-zero result
with a success code.  At the concrete negative-direction profile started
from 100 to 0 (successfully configured) a query fails
`invalidConfiguration` instead, and on the positive-direction profile from
0 to 100 the query at exactly t3 = 52 is served by the deceleration branch
and returns position 52, not the zero result. -/
theorem C7_counterexample :
    ((TrapezoidalMotionProfile.mk2 1 2).startMotion 100 0 0).1.errcode
      = ErrorCode.success ∧
    resultCode (calculateMotion
      ((TrapezoidalMotionProfile.mk2 1 2).startMotion 100 0 0).2 10)
      = ErrorCode.invalidConfiguration ∧
    ((TrapezoidalMotionProfile.mk2 1 2).startMotion 0 100 0).2.t3 = 52 ∧
    calculateMotion ((TrapezoidalMotionProfile.mk2 1 2).startMotion 0 100 0).2 52
      = .ok { position := 52, speed := 0, acceleration := -1 } := by
  rw [startMotion_eval_pos, startMotion_eval_neg]
  refine ⟨rfl, ?_, by norm_num, calculateMotion_eval_atT3⟩
  rw [calculateMotion_eval_negProfile]
  rfl

open TrapezoidalMotionProfile in
/-- C7 amended: for every profile successfully started in the positive
direction (acceleration > 0, speed limit > 0, x0 < xt), every query whose
elapsed time lies strictly past t3 matches none of the three phase
branches and returns the default-zero result with a success code.  (At
exactly t3 the deceleration branch still applies, and negative-direction
profiles fail `invalidConfiguration` on every query.) -/
theorem C7_pastEnd_amended (acc lim x0 xt t0 t : ℝ)
    (hacc : 0 < acc) (hlim : 0 < lim) (hdir : x0 < xt)
    (ht : ((TrapezoidalMotionProfile.mk2 acc lim).startMotion x0 xt t0).2.t3 < t - t0) :
    ((TrapezoidalMotionProfile.mk2 acc lim).startMotion x0 xt t0).1.errcode
      = ErrorCode.success ∧
    calculateMotion ((TrapezoidalMotionProfile.mk2 acc lim).startMotion x0 xt t0).2 t
      = .ok { position := 0, speed := 0, acceleration := 0 } := by
  have hrun := startMotion_pos_run acc lim x0 xt t0 hacc hlim hdir
  rw [hrun] at ht ⊢
  set V := min lim (Real.sqrt (acc * (xt - x0))) with hVdef
  have hmul : 0 < acc * (xt - x0) := mul_pos hacc (sub_pos.mpr hdir)
  have hV : 0 < V := lt_min hlim (Real.sqrt_pos.mpr hmul)
  have hVV : V * V ≤ acc * (xt - x0) := by
    have h1 : V ≤ Real.sqrt (acc * (xt - x0)) := min_le_right _ _
    have h2 := mul_self_le_mul_self hV.le h1
    rwa [Real.mul_self_sqrt hmul.le] at h2
  have hx1 : acc * (V / acc) * (V / acc) = V * V / acc := by
    field_simp
  have hnum : 0 ≤ xt + x0 - 2 * (x0 + acc * (V / acc) * (V / acc) / 2) := by
    rw [hx1]
    have hdl : V * V / acc ≤ xt - x0 := by
      rw [div_le_iff₀ hacc]; nlinarith [hVV]
    linarith [hdl]
  have hq : 0 ≤ (xt + x0 - 2 * (x0 + acc * (V / acc) * (V / acc) / 2)) / V :=
    div_nonneg hnum hV.le
  have ht1 : 0 ≤ V / acc := div_nonneg hV.le hacc.le
  refine ⟨rfl, ?_⟩
  refine calculateMotion_past_end _ t ?_ ?_ ?_ ?_ ?_ ?_ ?_
  · exact ne_of_lt hdir
  · exact hacc
  · exact hV
  · show V / acc ≤ V / acc + (V / acc + _)
    linarith [hq, ht1]
  · show V / acc + _ ≤ V / acc + (V / acc + _)
    linarith [ht1]
  · show (0:ℝ) ≤ V / acc + (V / acc + _)
    linarith [hq, ht1]
  · exact ht

open TrapezoidalMotionProfile in
/-- Witness for the amended C7 at a concrete input: on the profile with
acceleration 1, speed limit 2, from 0 to 100 (t3 = 52), the query at time
53 returns the default-zero result with success. -/
theorem C7_pastEnd_amended_witness :
    ((TrapezoidalMotionProfile.mk2 1 2).startMotion 0 100 0).1.errcode
      = ErrorCode.success ∧
    calculateMotion ((TrapezoidalMotionProfile.mk2 1 2).startMotion 0 100 0).2 53
      = .ok { position := 0, speed := 0, acceleration := 0 } :=
  C7_pastEnd_amended 1 2 0 100 0 53 (by norm_num) (by norm_num) (by norm_num)
    (by rw [startMotion_eval_pos]; norm_num)

/-- C9: `PIDRegulator::compute` never divides by zero: on a first call
(stored previous time still zero) the output is exactly `Kp * error` and
the state update touches only the previous time and previous error
(integral untouched); on a later call with a non-positive time step the
derivative contributes nothing; in particular a call repeating the stored
timestamp (time step zero) is safe, leaves the integral accumulator
unchanged and yields output `Kp * error + Ki * integral`. -/
theorem C9_pid_no_division_by_zero (st : PIDRegulator) (measured target time : ℝ) :
    (st.prevTime = 0 →
      st.compute measured target time =
        (st.Kp * (target - measured),
         { st with prevTime := time, errold := target - measured })) ∧
    (st.prevTime ≠ 0 → time - st.prevTime ≤ 0 →
      (st.compute measured target time).1 =
        st.Kp * (target - measured) +
          st.Ki * (st.integral + (target - measured) * (time - st.prevTime))) ∧
    (st.prevTime ≠ 0 →
      (st.compute measured target st.prevTime).1 =
        st.Kp * (target - measured) + st.Ki * st.integral ∧
      (st.compute measured target st.prevTime).2.integral = st.integral) := by
  refine ⟨?_, ?_, ?_⟩
  · intro h
    unfold PIDRegulator.compute
    simp [h]
  · intro h hts
    unfold PIDRegulator.compute
    simp [h, not_lt.mpr hts]
  · intro h
    unfold PIDRegulator.compute
    simp [h]

/-- Witness for C9 at concrete inputs: a first call with `prevTime = 0`
returns only the proportional term and leaves the integral at 7; a
repeated-timestamp call on `prevTime = 4` returns `Kp*e + Ki*integral`
(2*8 + 3*7 = 37) and keeps the integral at 7. -/
theorem C9_pid_no_division_by_zero_witness :
    PIDRegulator.compute ⟨2, 3, 5, 1, 7, 0, 0⟩ 1 9 5 = (16, ⟨2, 3, 5, 8, 7, 0, 5⟩) ∧
    (PIDRegulator.compute ⟨2, 3, 5, 1, 7, 0, 4⟩ 1 9 4).1 = 37 ∧
    (PIDRegulator.compute ⟨2, 3, 5, 1, 7, 0, 4⟩ 1 9 4).2.integral = 7 := by
  refine ⟨?_, ?_, ?_⟩
  · have h := (C9_pid_no_division_by_zero ⟨2, 3, 5, 1, 7, 0, 0⟩ 1 9 5).1 rfl
    rw [h]; norm_num
  · have h := (C9_pid_no_division_by_zero ⟨2, 3, 5, 1, 7, 0, 4⟩ 1 9 4).2.2 (by norm_num)
    have h1 := h.1
    norm_num at h1 ⊢
    exact h1
  · have h := (C9_pid_no_division_by_zero ⟨2, 3, 5, 1, 7, 0, 4⟩ 1 9 4).2.2 (by norm_num)
    have h2 := h.2
    norm_num at h2 ⊢
    exact h2

open TrapezoidalMotionProfile in
/-- C10: a successful `startMotion` overwrites the stored speed limit with
the signed effective limit `s * min(speedLimit, sqrt(acceleration*|xt-x0|))`;
after a successful negative-direction start (xt < x0) the stored speed
limit is therefore negative, and a subsequent `startMotion` on the same
object fails `invalidConfiguration` (and resets the state) even for a
fresh pair of distinct positions. -/
theorem C10_negative_start_poisons_speedLimit
    (acc lim x0 xt t0 x0' xt' t0' : ℝ)
    (hacc : 0 < acc) (hlim : 0 < lim) (hdir : xt < x0) (hne : x0' ≠ xt') :
    ((TrapezoidalMotionProfile.mk2 acc lim).startMotion x0 xt t0).1.errcode
      = ErrorCode.success ∧
    ((TrapezoidalMotionProfile.mk2 acc lim).startMotion x0 xt t0).2.speedLimit
      = -min lim (Real.sqrt (acc * (x0 - xt))) ∧
    ((TrapezoidalMotionProfile.mk2 acc lim).startMotion x0 xt t0).2.speedLimit < 0 ∧
    (((TrapezoidalMotionProfile.mk2 acc lim).startMotion x0 xt t0).2.startMotion
        x0' xt' t0').1.errcode = ErrorCode.invalidConfiguration ∧
    (((TrapezoidalMotionProfile.mk2 acc lim).startMotion x0 xt t0).2.startMotion
        x0' xt' t0').2 = init := by
  obtain ⟨h1, h2, h3⟩ := startMotion_neg_fields acc lim x0 xt t0 hacc hlim hdir
  have hmul : 0 < acc * (x0 - xt) := mul_pos hacc (sub_pos.mpr hdir)
  have hV : 0 < min lim (Real.sqrt (acc * (x0 - xt))) :=
    lt_min hlim (Real.sqrt_pos.mpr hmul)
  have hsl : ((TrapezoidalMotionProfile.mk2 acc lim).startMotion x0 xt t0).2.speedLimit < 0 := by
    rw [h2]; linarith
  obtain ⟨h4, h5⟩ := startMotion_nonpos_speedLimit
    ((TrapezoidalMotionProfile.mk2 acc lim).startMotion x0 xt t0).2 x0' xt' t0'
    hne (by rw [h3]; exact hacc) hsl.le
  exact ⟨h1, h2, hsl, h4, h5⟩

/-- C3 counterexample: the claim states that the error code of the
combined `Platform::setSpeeds` error is the code of the FIRST per-motor
failure.  With two failing controllers (first `outOfRange`, second
`invalidResource`) the combined code is `invalidResource` — the code of
the last failure, because the loop overwrites `err.errcode` on every
failing motor. -/
theorem C3_first_code_counterexample :
    (Platform.setSpeeds
        [fun _ => { errcode := .outOfRange, msg := "first failure" },
         fun _ => { errcode := .invalidResource, msg := "second failure" }]
        [0, 0]).1.errcode = ErrorCode.invalidResource ∧
    ErrorCode.invalidResource ≠ ErrorCode.outOfRange := by
  exact ⟨rfl, by decide⟩

/-- C3 amended: `Platform::setSpeeds` fails `invalidArgument` and calls
`setSpeed` on no controller when the array length differs from the
controller count; otherwise it calls `setSpeed` on every controller (in
index order) even when some fail, concatenates all per-motor failure
messages into one combined error, and the code of the combined error is
the code of the LAST per-motor failure (success if none fail). -/
theorem C3_setSpeeds_amended (controllers : List (ℝ → Error)) (speeds : List ℝ) :
    (speeds.length ≠ controllers.length →
      Platform.setSpeeds controllers speeds =
        ({ errcode := .invalidArgument,
           msg := "Cannot apply speeds set to controller set as there are different amount of them" },
         [])) ∧
    (speeds.length = controllers.length →
      (Platform.setSpeeds controllers speeds).2 = List.range controllers.length ∧
      (Platform.setSpeeds controllers speeds).1.msg
        = aggregateMsg (applyResults controllers speeds) ∧
      (Platform.setSpeeds controllers speeds).1.errcode
        = lastFailCode (applyResults controllers speeds)) := by
  constructor
  · intro h
    unfold Platform.setSpeeds
    rw [if_pos h]
  · intro h
    unfold Platform.setSpeeds
    rw [if_neg (not_not_intro h)]
    obtain ⟨h1, h2, h3⟩ := setSpeedsGo_spec (controllers.zip speeds) 0 {}
    refine ⟨?_, ?_, ?_⟩
    · rw [h1, List.length_zip, h, min_self, ← List.range_eq_range']
    · rw [h2]
      simp [applyResults]
    · rw [h3]
      unfold lastFailCode applyResults
      exact errcode_getLastD _ _ _ rfl

/-- Witness for the amended C3 at concrete inputs: a one-controller
platform with an empty speeds array fails `invalidArgument` with no call;
a two-controller platform (first failing `outOfRange`, second succeeding)
calls both controllers, aggregates the single failure message and surfaces
`outOfRange`. -/
theorem C3_setSpeeds_amended_witness :
    Platform.setSpeeds [fun _ => ({} : Error)] ([] : List ℝ) =
      ({ errcode := .invalidArgument,
         msg := "Cannot apply speeds set to controller set as there are different amount of them" },
       []) ∧
    (Platform.setSpeeds
        [fun _ => { errcode := .outOfRange, msg := "first failure" },
         fun _ => ({} : Error)] [0, 0]).2 = [0, 1] ∧
    (Platform.setSpeeds
        [fun _ => { errcode := .outOfRange, msg := "first failure" },
         fun _ => ({} : Error)] [0, 0]).1.msg
      = Platform.aggSep ++ "first failure" ∧
    (Platform.setSpeeds
        [fun _ => { errcode := .outOfRange, msg := "first failure" },
         fun _ => ({} : Error)] [0, 0]).1.errcode = ErrorCode.outOfRange := by
  refine ⟨(C3_setSpeeds_amended _ _).1 (by decide), ?_⟩
  obtain ⟨h1, h2, h3⟩ := (C3_setSpeeds_amended
    [fun _ => { errcode := .outOfRange, msg := "first failure" },
     fun _ => ({} : Error)] [0, 0]).2 rfl
  refine ⟨by rw [h1]; rfl, by rw [h2]; rfl, by rw [h3]; rfl⟩

/-- C4 counterexample: the claim states that every failure during
`calculatePitch` (angular-rate read, integrator update, or the correction
hook's acceleration read) leaves the estimator's stored state, including
the integrator's accumulated value, unchanged.  At this concrete input the
hook's acceleration read fails, the error is propagated, but the
integrator has already advanced: its accumulated value is 5 (not the prior
0) and its stored time is 1 (not the prior 0). -/
theorem C4_failure_state_counterexample :
    calculatePitch
      { integralWeight := 1, offset := 0, integrator := { integral := 0, prevTime := 0 } } 1
      (.ok { x := 0, y := 5, z := 0 })
      (.error { errcode := .invalidResource, msg := "acceleration read failed" })
      = (.error { errcode := .invalidResource, msg := "acceleration read failed" },
         { integralWeight := 1, offset := 0, integrator := { integral := 5, prevTime := 1 } }) ∧
    ({ integral := (5:ℝ), prevTime := (1:ℝ) } : Integrator)
      ≠ { integral := 0, prevTime := 0 } := by
  constructor
  · unfold calculatePitch internalNonIntegralPartPitchCalculationAcc Integrator.update
    norm_num
  · intro h
    rw [Integrator.mk.injEq] at h
    norm_num at h

/-- C4 amended: a failure of the angular-rate sensor read short-circuits
`calculatePitch` with that failure and leaves the stored estimator state
exactly as it was; a failure of the correction hook's acceleration read
also short-circuits with that failure, but by then the integrator update
has already run, so the stored integrator holds the newly accumulated
value and the new timestamp.  (In the spec model the integrator update
itself always succeeds, so no separate integrator-failure case arises.) -/
theorem C4_failure_propagation_amended (cfg : YPRElementCalculatorConfig)
    (t : ℝ) (e : Error) (accRes : Except Error Vector3) (w : Vector3) (e2 : Error) :
    calculatePitch cfg t (.error e) accRes = (.error e, cfg) ∧
    calculatePitch cfg t (.ok w) (.error e2) =
      (.error e2,
       { cfg with integrator :=
           { integral := cfg.integrator.integral + w.y * (t - cfg.integrator.prevTime),
             prevTime := t } }) := by
  constructor
  · rfl
  · unfold calculatePitch internalNonIntegralPartPitchCalculationAcc Integrator.update
    simp

/-- C6 counterexample: the claim quantifies over every
`RangedSpeedController` and every speed inside the interface range, in
both reversed and non-reversed mode.  With the asymmetric interface range
[0,10] and reversed mode, setSpeed(5) then getSpeed() returns 0 (the
negated speed -5 is clamped to the range bound 0 before mapping), not 5;
and with a degenerate physical range [3,3] even the non-reversed round
trip cannot return 5. -/
theorem C6_roundtrip_counterexample :
    RangedSpeedController.setThenGet
      { anglePos := 0, distance := 1, wheelR := 1,
        speedRange := { lo := 0, hi := 10 },
        interfaceSpeedRange := { lo := 0, hi := 10 },
        isReversed := true, parallelAxisesAmount := 1 } 5 = 0 ∧
    RangedSpeedController.setThenGet
      { anglePos := 0, distance := 1, wheelR := 1,
        speedRange := { lo := 3, hi := 3 },
        interfaceSpeedRange := { lo := 0, hi := 10 },
        isReversed := false, parallelAxisesAmount := 1 } 5 ≠ 5 := by
  constructor
  · unfold RangedSpeedController.setThenGet RangedSpeedController.getSpeedFromRaw
      RangedSpeedController.setSpeedRawValue Range.restrictTo Range.mapValueToRange
    norm_num
  · unfold RangedSpeedController.setThenGet RangedSpeedController.getSpeedFromRaw
      RangedSpeedController.setSpeedRawValue Range.restrictTo Range.mapValueToRange
    norm_num

/-- C6 amended: for every `RangedSpeedController` whose interface and
physical speed ranges are non-degenerate and whose raw driver returns on
`getSpeedRaw` exactly the value last passed to `setSpeedRaw`, `setSpeed(s)`
followed by `getSpeed()` returns `s` exactly for every `s` inside the
interface range when not reversed; when reversed it does so provided `-s`
also lies inside the interface range (as with the symmetric ranges
typical of reversible motors). -/
theorem C6_roundtrip_amended (info : MotorInfo) (s : ℝ)
    (hi : info.interfaceSpeedRange.lo ≠ info.interfaceSpeedRange.hi)
    (hp : info.speedRange.lo ≠ info.speedRange.hi)
    (hs : info.interfaceSpeedRange.contains s = true) :
    (info.isReversed = false → RangedSpeedController.setThenGet info s = s) ∧
    (info.isReversed = true → info.interfaceSpeedRange.contains (-s) = true →
      RangedSpeedController.setThenGet info s = s) := by
  obtain ⟨hlo, hhi⟩ : info.interfaceSpeedRange.lo ≤ s ∧ s ≤ info.interfaceSpeedRange.hi := by
    simpa [Range.contains] using hs
  have h1 : info.interfaceSpeedRange.hi - info.interfaceSpeedRange.lo ≠ 0 :=
    sub_ne_zero.mpr (Ne.symm hi)
  have h2 : info.speedRange.hi - info.speedRange.lo ≠ 0 :=
    sub_ne_zero.mpr (Ne.symm hp)
  constructor
  · intro hrev
    unfold RangedSpeedController.setThenGet RangedSpeedController.getSpeedFromRaw
      RangedSpeedController.setSpeedRawValue Range.restrictTo Range.mapValueToRange
    simp [hrev, not_lt.mpr hlo, not_lt.mpr hhi]
    field_simp
  · intro hrev hs2
    obtain ⟨hlo2, hhi2⟩ : info.interfaceSpeedRange.lo ≤ -s ∧ -s ≤ info.interfaceSpeedRange.hi := by
      simpa [Range.contains] using hs2
    unfold RangedSpeedController.setThenGet RangedSpeedController.getSpeedFromRaw
      RangedSpeedController.setSpeedRawValue Range.restrictTo Range.mapValueToRange
    simp [hrev, not_lt.mpr hlo2, not_lt.mpr hhi2]
    field_simp

/-- Witness for the amended C6 at concrete inputs: with interface range
[-10,10] and physical range [0,255], the round trip returns 5 for speed 5
both non-reversed and reversed. -/
theorem C6_roundtrip_amended_witness :
    RangedSpeedController.setThenGet
      { anglePos := 0, distance := 1, wheelR := 1,
        speedRange := { lo := 0, hi := 255 },
        interfaceSpeedRange := { lo := -10, hi := 10 },
        isReversed := false, parallelAxisesAmount := 1 } 5 = 5 ∧
    RangedSpeedController.setThenGet
      { anglePos := 0, distance := 1, wheelR := 1,
        speedRange := { lo := 0, hi := 255 },
        interfaceSpeedRange := { lo := -10, hi := 10 },
        isReversed := true, parallelAxisesAmount := 1 } 5 = 5 := by
  constructor
  · exact (C6_roundtrip_amended _ 5 (by norm_num) (by norm_num)
      (by simp [Range.contains]; norm_num)).1 rfl
  · exact (C6_roundtrip_amended _ 5 (by norm_num) (by norm_num)
      (by simp [Range.contains]; norm_num)).2 rfl
      (by simp [Range.contains]; norm_num)

/-- C5 counterexample: the claim states that for EVERY precision p a wheel
counts 1 plus the wheels whose angle is equal or opposite to its own
within p decimal places.  Motors at angles 0 and 180 are exactly opposite
(their absolute difference is exactly 180), yet at precision 1 both wheels
keep count 1 instead of 2: the loop compares the scaled rounded difference
(1800) against the unscaled constant 180. -/
theorem C5_parallel_axes_counterexample :
    |angleAt [{ anglePos := 0 }, { anglePos := 180 }] 0 -
      angleAt [{ anglePos := 0 }, { anglePos := 180 }] 1| = 180 ∧
    countAt (updateParallelAxisesForMotors
      [{ anglePos := 0 }, { anglePos := 180 }] 1) 0 = 1 ∧
    countAt (updateParallelAxisesForMotors
      [{ anglePos := 0 }, { anglePos := 180 }] 1) 1 = 1 ∧
    (1 : ℕ) ≠ 2 := by
  refine ⟨?_, ?_, ?_, by norm_num⟩
  · norm_num [angleAt]
  · rw [update_eval_pair]
    rfl
  · rw [update_eval_pair]
    rfl

/-- C5 amended: for every motor configuration and every precision p,
`updateParallelAxisesForMotors` assigns each wheel a
`parallelAxisesAmount` equal to 1 plus the number of other wheels whose
scaled absolute angle difference `|a_i - a_j| * 10^p` rounds to 0 or to
180 — which coincides with "equal or opposite within p decimal places"
only at precision 0.  In particular, for motors at angles [0, 180, 90]
with precision 0, the first two wheels get count 2 and the third gets 1. -/
theorem C5_parallel_axes_amended (config : List MotorInfo) (precision idx : ℕ)
    (h : idx < config.length) :
    countAt (updateParallelAxisesForMotors config precision) idx
      = 1 + parallelPeerCount config precision idx ∧
    countAt (updateParallelAxisesForMotors
      [{ anglePos := 0 }, { anglePos := 180 }, { anglePos := 90 }] 0) 0 = 2 ∧
    countAt (updateParallelAxisesForMotors
      [{ anglePos := 0 }, { anglePos := 180 }, { anglePos := 90 }] 0) 1 = 2 ∧
    countAt (updateParallelAxisesForMotors
      [{ anglePos := 0 }, { anglePos := 180 }, { anglePos := 90 }] 0) 2 = 1 := by
  refine ⟨countAt_update config precision idx h, ?_, ?_, ?_⟩ <;>
    rw [update_eval_triple] <;> rfl

/-- Witness for the amended C5 at a concrete input: the three-motor
configuration [0, 180, 90] at precision 0 and index 0. -/
theorem C5_parallel_axes_amended_witness :
    countAt (updateParallelAxisesForMotors
      [{ anglePos := 0 }, { anglePos := 180 }, { anglePos := 90 }] 0) 0
      = 1 + parallelPeerCount
          [{ anglePos := 0 }, { anglePos := 180 }, { anglePos := 90 }] 0 0 ∧
    countAt (updateParallelAxisesForMotors
      [{ anglePos := 0 }, { anglePos := 180 }, { anglePos := 90 }] 0) 0 = 2 ∧
    countAt (updateParallelAxisesForMotors
      [{ anglePos := 0 }, { anglePos := 180 }, { anglePos := 90 }] 0) 1 = 2 ∧
    countAt (updateParallelAxisesForMotors
      [{ anglePos := 0 }, { anglePos := 180 }, { anglePos := 90 }] 0) 2 = 1 :=
  C5_parallel_axes_amended
    [{ anglePos := 0 }, { anglePos := 180 }, { anglePos := 90 }] 0 0 (by simp)

/-- C8: every configuration produced by `updateParallelAxisesForMotors`
(and hence every configuration a `Platform` is constructed from) gives
every motor a `parallelAxisesAmount` of at least 1, because each count is
reset to 1 and afterwards only incremented; consequently
`calculateMotorLinearSpeed` never returns the `invalidArgument` error of
its zero-parallel-axes branch on such a motor. -/
theorem C8_parallel_axes_ge_one (config : List MotorInfo) (precision idx : ℕ)
    (h : idx < config.length) (angle speed : ℝ) :
    1 ≤ countAt (updateParallelAxisesForMotors config precision) idx ∧
    resultCode (calculateMotorLinearSpeed
      ((updateParallelAxisesForMotors config precision).getD idx {}) angle speed)
      ≠ ErrorCode.invalidArgument := by
  have hc := countAt_update config precision idx h
  constructor
  · rw [hc]
    omega
  · have hcz : ((updateParallelAxisesForMotors config precision).getD idx
        {}).parallelAxisesAmount ≠ 0 := by
      unfold countAt at hc
      omega
    unfold calculateMotorLinearSpeed
    rw [if_neg hcz]
    split
    · simp [resultCode]
    · simp [resultCode]

/-- Witness for C8 at a concrete input: the two-motor configuration
[0, 180], precision 0, index 0, travel angle 0, speed 0. -/
theorem C8_parallel_axes_ge_one_witness :
    1 ≤ countAt (updateParallelAxisesForMotors
      [{ anglePos := 0 }, { anglePos := 180 }] 0) 0 ∧
    resultCode (calculateMotorLinearSpeed
      ((updateParallelAxisesForMotors
        [{ anglePos := 0 }, { anglePos := 180 }] 0).getD 0 {}) 0 0)
      ≠ ErrorCode.invalidArgument :=
  C8_parallel_axes_ge_one [{ anglePos := 0 }, { anglePos := 180 }] 0 0 (by simp) 0 0

open TrapezoidalMotionProfile in
/-- Witness for C10 at a concrete input: after starting from 100 towards 0
with acceleration 1 and speed limit 2, the stored speed limit is negative
and the next start from 0 towards 50 fails `invalidConfiguration`. -/
theorem C10_negative_start_poisons_speedLimit_witness :
    ((TrapezoidalMotionProfile.mk2 1 2).startMotion 100 0 0).2.speedLimit < 0 ∧
    (((TrapezoidalMotionProfile.mk2 1 2).startMotion 100 0 0).2.startMotion
        0 50 0).1.errcode = ErrorCode.invalidConfiguration ∧
    (((TrapezoidalMotionProfile.mk2 1 2).startMotion 100 0 0).2.startMotion
        0 50 0).2 = init :=
  ⟨(C10_negative_start_poisons_speedLimit 1 2 100 0 0 0 50 0
      (by norm_num) (by norm_num) (by norm_num) (by norm_num)).2.2.1,
   (C10_negative_start_poisons_speedLimit 1 2 100 0 0 0 50 0
      (by norm_num) (by norm_num) (by norm_num) (by norm_num)).2.2.2.1,
   (C10_negative_start_poisons_speedLimit 1 2 100 0 0 0 50 0
      (by norm_num) (by norm_num) (by norm_num) (by norm_num)).2.2.2.2⟩

end Vislib
